import Mathlib

/-!
Shallow embedding of the `find_orthos` repository (src/find_orthologues.py and
src/ortho_counts.py): protein records, OMA fingerprint extraction, per-family
tallying, threshold filtering, gap resolution against external query oracles,
and report rendering.  External HTTP queries are modelled as explicit oracle
parameters; a query that fails (timeout, malformed response) is `none`, which
the embedded wrappers turn into the same degraded values the Python exception
handlers return.
-/

namespace FindOrthos

/-- ASCII uppercase test: the character class of the regex `[A-Z]` used in
`re.findall(r'[A-Z]\x7b7\x7d', ...)` in both source files. -/
def isUpperAZ (c : Char) : Bool := decide ('A' ≤ c) && decide (c ≤ 'Z')

/-- Whether a list of characters starts with 7 consecutive ASCII uppercase
letters, i.e. whether the regex `[A-Z]\x7b7\x7d` matches at the current
position. -/
def startsUpper7 : List Char → Bool
  | c1 :: c2 :: c3 :: c4 :: c5 :: c6 :: c7 :: _ =>
      isUpperAZ c1 && isUpperAZ c2 && isUpperAZ c3 && isUpperAZ c4 &&
      isUpperAZ c5 && isUpperAZ c6 && isUpperAZ c7
  | _ => false

/-- The scanning loop of `re.findall(r'[A-Z]\x7b7\x7d', s)`: at each position,
if the next 7 characters are uppercase, emit them as a match and resume after
them (matches are non-overlapping), otherwise advance one character.  `fuel`
is an upper bound on the number of scan steps; `fuel = l.length` is always
enough because every step consumes at least one character. -/
def scanGo : Nat → List Char → List String
  | 0, _ => []
  | _ + 1, [] => []
  | fuel + 1, c :: cs =>
    if startsUpper7 (c :: cs) then
      String.mk ((c :: cs).take 7) :: scanGo fuel ((c :: cs).drop 7)
    else
      scanGo fuel cs

/-- `re.findall(r'[A-Z]\x7b7\x7d', ·)` on a list of characters. -/
def scanUpper7 (l : List Char) : List String := scanGo l.length l

/-- `re.findall(r'[A-Z]\x7b7\x7d', s)` on a string: the list of matched
tokens in scan order, with multiplicity. -/
def findallUpper7 (s : String) : List String := scanUpper7 s.data

/-- Whether the regex `[A-Z]\x7b7\x7d` matches anywhere in the character
list: some position starts 7 consecutive uppercase letters. -/
def existsUpper7 : List Char → Bool
  | [] => false
  | c :: cs => startsUpper7 (c :: cs) || existsUpper7 cs

/-- The fingerprint set extracted from one `clusterRefs` string: the source
inserts the `re.findall` matches into a Python `set`
(`oma_fingerprints.update(oma_matches)`), so duplicates collapse. -/
def omaFingerprintSet (s : String) : List String := (findallUpper7 s).dedup

theorem startsUpper7_spec (l : List Char) (h : startsUpper7 l = true) :
    (l.take 7).length = 7 ∧ (l.take 7).all isUpperAZ = true := by
  match l, h with
  | c1 :: c2 :: c3 :: c4 :: c5 :: c6 :: c7 :: rest, h =>
    simp only [startsUpper7, Bool.and_eq_true] at h
    obtain ⟨⟨⟨⟨⟨⟨h1, h2⟩, h3⟩, h4⟩, h5⟩, h6⟩, h7⟩ := h
    simp [List.take, List.all_cons, h1, h2, h3, h4, h5, h6, h7]

theorem scanGo_sound : ∀ (fuel : Nat) (l : List Char) (t : String),
    t ∈ scanGo fuel l → t.data.length = 7 ∧ t.data.all isUpperAZ = true := by
  intro fuel
  induction fuel with
  | zero => intro l t ht; simp [scanGo] at ht
  | succ n ih =>
    intro l t ht
    match l with
    | [] => simp [scanGo] at ht
    | c :: cs =>
      rw [scanGo] at ht
      by_cases hs : startsUpper7 (c :: cs) = true
      · rw [if_pos hs] at ht
        rcases List.mem_cons.mp ht with h | h
        · subst h
          exact startsUpper7_spec _ hs
        · exact ih _ _ h
      · rw [if_neg hs] at ht
        exact ih _ _ ht

theorem scanGo_empty_of_no_match : ∀ (fuel : Nat) (l : List Char),
    existsUpper7 l = false → scanGo fuel l = [] := by
  intro fuel
  induction fuel with
  | zero => intro l _; rfl
  | succ n ih =>
    intro l h
    match l with
    | [] => rfl
    | c :: cs =>
      rw [existsUpper7, Bool.or_eq_false_iff] at h
      rw [scanGo, if_neg (by simp [h.1])]
      exact ih cs h.2

/-- Claim C8: the fingerprint extractor is a total pure function on strings
(it is a plain Lean function, so it is total and effect-free by
construction): every token it returns matches the fixed pattern of exactly 7
consecutive uppercase letters, and when no token matches — in particular on
the empty string — it returns the empty set rather than an error. -/
theorem c8_extractor_total (s : String) :
    (∀ t ∈ omaFingerprintSet s, t.data.length = 7 ∧ t.data.all isUpperAZ = true) ∧
    (existsUpper7 s.data = false → omaFingerprintSet s = []) ∧
    omaFingerprintSet "" = [] := by
  refine ⟨?_, ?_, by decide⟩
  · intro t ht
    exact scanGo_sound _ _ _ (List.mem_dedup.mp ht)
  · intro h
    simp only [omaFingerprintSet, findallUpper7, scanUpper7]
    rw [scanGo_empty_of_no_match _ _ h]
    rfl

/-- Concrete instantiation of `c8_extractor_total`: on the all-lowercase
string "abc" no token matches and the extractor returns the empty set; it
also returns the empty set on the empty string. -/
theorem c8_extractor_total_witness :
    omaFingerprintSet "abc" = [] ∧ omaFingerprintSet "" = [] :=
  ⟨(c8_extractor_total "abc").2.1 (by decide), (c8_extractor_total "abc").2.2⟩

/-- One protein row as parsed from the UniProt TSV response by
`get_oma_proteins` in find_orthologues.py. -/
structure Protein where
  accession : String
  entryName : String
  proteinName : String
  pfamRefs : String
  omaRefs : String
  uniprotStatus : String
deriving DecidableEq

/-- Key lookup in an insertion-ordered association-list counter, with the
`collections.Counter` convention that a missing key counts 0. -/
def lookupCount : List (String × Nat) → String → Nat
  | [], _ => 0
  | kv :: rest, k => if kv.1 = k then kv.2 else lookupCount rest k

/-- Add one occurrence of `k` to an insertion-ordered counter: increment in
place if the key is present, else append it with count 1 (CPython dicts and
`Counter` preserve first-insertion order). -/
def counterAdd (m : List (String × Nat)) (k : String) : List (String × Nat) :=
  match m with
  | [] => [(k, 1)]
  | kv :: rest => if kv.1 = k then (kv.1, kv.2 + 1) :: rest else kv :: counterAdd rest k

/-- `Counter.update` with a list of keys: one `counterAdd` per list element,
in order, so each textual occurrence counts. -/
def counterUpdate (m : List (String × Nat)) (ks : List String) : List (String × Nat) :=
  ks.foldl counterAdd m

theorem lookupCount_counterAdd (m : List (String × Nat)) (k k' : String) :
    lookupCount (counterAdd m k) k' = lookupCount m k' + (if k' = k then 1 else 0) := by
  induction m with
  | nil =>
    by_cases h : k' = k
    · simp [counterAdd, lookupCount, h]
    · simp [counterAdd, lookupCount, h, Ne.symm h]
  | cons kv rest ih =>
    obtain ⟨a, n⟩ := kv
    by_cases h1 : a = k
    · subst h1
      by_cases h2 : a = k'
      · subst h2
        simp [counterAdd, lookupCount]
      · simp [counterAdd, lookupCount, h2, Ne.symm h2]
    · by_cases h2 : a = k'
      · subst h2
        simp [counterAdd, lookupCount, h1]
      · simp [counterAdd, lookupCount, h1, h2, ih]

theorem lookupCount_counterUpdate (ks : List String) (m : List (String × Nat)) (k : String) :
    lookupCount (counterUpdate m ks) k = lookupCount m k + ks.count k := by
  induction ks generalizing m with
  | nil => simp [counterUpdate]
  | cons a ks ih =>
    rw [show counterUpdate m (a :: ks) = counterUpdate (counterAdd m a) ks from rfl,
      ih, lookupCount_counterAdd]
    by_cases h : k = a
    · subst h
      have hc : List.count k (k :: ks) = List.count k ks + 1 := by simp
      rw [hc, if_pos rfl]
      omega
    · rw [List.count_cons_of_ne h, if_neg h]
      omega

/-- Step 2 of `analyze_pfam_family` in find_orthologues.py: the
per-fingerprint occurrence counter over the family's rows.  The
`if protein['oma_refs']` truthiness guard of the source is kept. -/
def omaCounts (pfamProteins : List Protein) : List (String × Nat) :=
  pfamProteins.foldl
    (fun m p => if p.omaRefs = "" then m else counterUpdate m (findallUpper7 p.omaRefs)) []

/-- All regex matches over the family rows, record by record, with
multiplicity: the concatenation of the per-row `re.findall` results that
`oma_counts.update` consumes. -/
def familyMatches (pfamProteins : List Protein) : List String :=
  (pfamProteins.map (fun p => if p.omaRefs = "" then [] else findallUpper7 p.omaRefs)).flatten

/-- The `pfam_accessions` set built in step 2 of `analyze_pfam_family`
(find_orthologues.py); the source computes it and never reads it again. -/
def pfamAccessions (pfamProteins : List Protein) : List String :=
  pfamProteins.foldl (fun s p => if p.accession ∈ s then s else s ++ [p.accession]) []

theorem lookupCount_omaCounts_aux (ps : List Protein) (m : List (String × Nat)) (F : String) :
    lookupCount
      (ps.foldl
        (fun m p => if p.omaRefs = "" then m else counterUpdate m (findallUpper7 p.omaRefs)) m)
      F = lookupCount m F + (familyMatches ps).count F := by
  induction ps generalizing m with
  | nil => simp [familyMatches]
  | cons p ps ih =>
    rw [List.foldl_cons, ih]
    by_cases h : p.omaRefs = ""
    · simp [familyMatches, h]
    · simp only [familyMatches, List.map_cons, List.flatten_cons, if_neg h, List.count_append,
        lookupCount_counterUpdate]
      omega

/-- Claim C1 (amended): the tally maps each fingerprint F to the total
number of textual (non-overlapping regex) occurrences of F across the
family records' `clusterRefs` fields — occurrences are NOT de-duplicated
per record, so a record whose text yields F twice increments F's count by
two. -/
theorem c1_tally_counts_occurrences (ps : List Protein) (F : String) :
    lookupCount (omaCounts ps) F = (familyMatches ps).count F := by
  rw [omaCounts, lookupCount_omaCounts_aux]
  simp [lookupCount]

/-- A family record whose `clusterRefs` text yields the fingerprint
"ABCDEFG" twice. -/
def protDup : Protein :=
  { accession := "P00001", entryName := "", proteinName := "",
    pfamRefs := "", omaRefs := "ABCDEFG;ABCDEFG", uniprotStatus := "TrEMBL" }

/-- Counterexample to claim C1 as stated: for the single-record family
`[protDup]` the tally gives "ABCDEFG" the count 2, yet only 1 distinct
family record has "ABCDEFG" in its extraction set, so the tally does not
equal the number of distinct records containing the fingerprint. -/
theorem c1_counterexample :
    lookupCount (omaCounts [protDup]) "ABCDEFG" = 2 ∧
    (([protDup] : List Protein).filter
      (fun p => decide ("ABCDEFG" ∈ omaFingerprintSet p.omaRefs))).length = 1 := by
  decide

/-- Step 3 of `analyze_pfam_family` in find_orthologues.py: the dict
comprehension keeping the fingerprints whose count reaches `min_count`,
in the counter's insertion order. -/
def frequent_omas (counts : List (String × Nat)) (minCount : Nat) : List (String × Nat) :=
  counts.filter (fun kv => decide (minCount ≤ kv.2))

/-- Claim C7: threshold monotonicity — for any tally and any threshold
t ≥ 1, every fingerprint qualifying at threshold t+1 also qualifies at
threshold t, and raising the threshold never increases the number of
qualifying fingerprints. -/
theorem c7_threshold_monotone (counts : List (String × Nat)) (t : Nat) (h : 1 ≤ t) :
    (∀ kv ∈ frequent_omas counts (t + 1), kv ∈ frequent_omas counts t) ∧
    (frequent_omas counts (t + 1)).length ≤ (frequent_omas counts t).length := by
  clear h
  induction counts with
  | nil => simp [frequent_omas]
  | cons kv rest ih =>
    constructor
    · intro x hx
      rw [frequent_omas, List.filter_cons] at hx ⊢
      by_cases h1 : t + 1 ≤ kv.2
      · rw [if_pos (by simpa using h1)] at hx
        rw [if_pos (by simp; omega)]
        rcases List.mem_cons.mp hx with h | h
        · exact List.mem_cons.mpr (Or.inl h)
        · exact List.mem_cons.mpr (Or.inr (ih.1 x h))
      · rw [if_neg (by simpa using h1)] at hx
        by_cases h2 : t ≤ kv.2
        · rw [if_pos (by simpa using h2)]
          exact List.mem_cons.mpr (Or.inr (ih.1 x hx))
        · rw [if_neg (by simpa using h2)]
          exact ih.1 x hx
    · rw [frequent_omas, frequent_omas, List.filter_cons, List.filter_cons]
      by_cases h1 : t + 1 ≤ kv.2
      · rw [if_pos (by simpa using h1), if_pos (by simp; omega)]
        have hr := ih.2
        simp only [frequent_omas] at hr
        simp only [List.length_cons]
        omega
      · rw [if_neg (by simpa using h1)]
        by_cases h2 : t ≤ kv.2
        · rw [if_pos (by simpa using h2)]
          have hr := ih.2
          simp only [frequent_omas] at hr
          simp only [List.length_cons]
          omega
        · rw [if_neg (by simpa using h2)]
          exact ih.2

/-- Concrete instantiation of `c7_threshold_monotone` at t = 1 on a
two-entry tally. -/
theorem c7_threshold_monotone_witness :
    (∀ kv ∈ frequent_omas [("AAAAAAA", 1), ("BBBBBBB", 2)] 2,
      kv ∈ frequent_omas [("AAAAAAA", 1), ("BBBBBBB", 2)] 1) ∧
    (frequent_omas [("AAAAAAA", 1), ("BBBBBBB", 2)] 2).length ≤
      (frequent_omas [("AAAAAAA", 1), ("BBBBBBB", 2)] 1).length :=
  c7_threshold_monotone [("AAAAAAA", 1), ("BBBBBBB", 2)] 1 (by decide)

/-- One step of a stable insertion sort by descending count: the inserted
element `x` comes earlier in the original sequence, so it is placed before
the first element whose count is ≤ its own.  This is the unique stable
descending-by-count order, i.e. the behaviour of Python's
`sorted(..., key=lambda x: x[1], reverse=True)` (a stable sort). -/
def insCountDesc (x : String × Nat) : List (String × Nat) → List (String × Nat)
  | [] => [x]
  | y :: ys => if y.2 ≤ x.2 then x :: y :: ys else y :: insCountDesc x ys

/-- Stable sort by descending count, modelling
`sorted(items, key=lambda x: x[1], reverse=True)` as used on the qualifying
fingerprints in `generate_report` (find_orthologues.py) and in
`filter_frequent_omas` (ortho_counts.py). -/
def sortByCountDesc : List (String × Nat) → List (String × Nat)
  | [] => []
  | x :: xs => insCountDesc x (sortByCountDesc xs)

theorem chain'_insCountDesc (x : String × Nat) (l : List (String × Nat))
    (hl : List.Chain' (fun a b => b.2 ≤ a.2) l) :
    List.Chain' (fun a b => b.2 ≤ a.2) (insCountDesc x l) := by
  induction l with
  | nil => simp [insCountDesc]
  | cons y ys ih =>
    rw [insCountDesc]
    by_cases h : y.2 ≤ x.2
    · rw [if_pos h, List.chain'_cons]
      exact ⟨h, hl⟩
    · rw [if_neg h]
      have hys : List.Chain' (fun a b => b.2 ≤ a.2) ys := hl.tail
      rw [List.chain'_cons']
      refine ⟨?_, ih hys⟩
      intro b hb
      rcases ys with _ | ⟨z, zs⟩
      · simp [insCountDesc] at hb
        subst hb
        omega
      · rw [show insCountDesc x (z :: zs) =
            if z.2 ≤ x.2 then x :: z :: zs else z :: insCountDesc x zs from rfl] at hb
        by_cases h3 : z.2 ≤ x.2
        · rw [if_pos h3] at hb
          simp at hb
          subst hb
          omega
        · rw [if_neg h3] at hb
          simp at hb
          subst hb
          exact (List.chain'_cons.mp hl).1

theorem filter_insCountDesc (x : String × Nat) (l : List (String × Nat)) (c : Nat) :
    (insCountDesc x l).filter (fun kv => decide (kv.2 = c)) =
      if x.2 = c then x :: l.filter (fun kv => decide (kv.2 = c))
      else l.filter (fun kv => decide (kv.2 = c)) := by
  induction l with
  | nil =>
    by_cases hx : x.2 = c <;> simp [insCountDesc, hx]
  | cons y ys ih =>
    rw [insCountDesc]
    by_cases h : y.2 ≤ x.2
    · rw [if_pos h, List.filter_cons]
      by_cases hx : x.2 = c <;> simp [hx]
    · rw [if_neg h, List.filter_cons, List.filter_cons]
      by_cases hy : y.2 = c
      · by_cases hx : x.2 = c
        · exact absurd (le_of_eq (hy.trans hx.symm)) h
        · simp [hy, hx, ih]
      · by_cases hx : x.2 = c
        · simp [hy, hx, ih]
        · simp [hy, hx, ih]

theorem sortByCountDesc_sorted_stable (l : List (String × Nat)) :
    List.Chain' (fun a b => b.2 ≤ a.2) (sortByCountDesc l) ∧
    ∀ c, (sortByCountDesc l).filter (fun kv => decide (kv.2 = c)) =
      l.filter (fun kv => decide (kv.2 = c)) := by
  induction l with
  | nil => simp [sortByCountDesc]
  | cons x xs ih =>
    refine ⟨chain'_insCountDesc x _ ih.1, ?_⟩
    intro c
    rw [show sortByCountDesc (x :: xs) = insCountDesc x (sortByCountDesc xs) from rfl,
      filter_insCountDesc, List.filter_cons]
    by_cases hx : x.2 = c <;> simp [hx, ih.2 c]

/-- `filter_frequent_omas` from ortho_counts.py: count the OMA group ids in
the mapping's values, keep those with count ≥ `min_count`, and materialize
them as `dict(sorted(items, key=lambda x: x[1], reverse=True))`. -/
def filter_frequent_omas (omaMapping : List (String × String)) (minCount : Nat) :
    List (String × Nat) :=
  sortByCountDesc (frequent_omas (counterUpdate [] (omaMapping.map (fun kv => kv.2))) minCount)

/-- Claim C3 (amended): the qualifying fingerprints are materialized sorted
by descending in-family count, but ties are kept in the underlying
mapping's first-insertion order (Python's sort is stable and the sort key
is the count alone), not re-ordered by ascending fingerprint string. -/
theorem c3_order_desc_count_stable_ties (m : List (String × String)) (t : Nat) :
    List.Chain' (fun a b => b.2 ≤ a.2) (filter_frequent_omas m t) ∧
    ∀ c, (filter_frequent_omas m t).filter (fun kv => decide (kv.2 = c)) =
      (frequent_omas (counterUpdate [] (m.map (fun kv => kv.2))) t).filter
        (fun kv => decide (kv.2 = c)) := by
  exact sortByCountDesc_sorted_stable _

/-- The OMA mapping of a six-record family in which the fingerprint
"BBBBBBB" is first encountered before "AAAAAAA", both with count 3. -/
def mapC3 : List (String × String) :=
  [("U1", "BBBBBBB"), ("U2", "BBBBBBB"), ("U3", "BBBBBBB"),
   ("U4", "AAAAAAA"), ("U5", "AAAAAAA"), ("U6", "AAAAAAA")]

/-- Counterexample to claim C3 as stated: at threshold 3 the materialized
order on `mapC3` is [("BBBBBBB", 3), ("AAAAAAA", 3)] — the count tie is NOT
broken by ascending fingerprint string (which would put "AAAAAAA" first);
it follows the mapping's insertion order instead. -/
theorem c3_counterexample :
    filter_frequent_omas mapC3 3 = [("BBBBBBB", 3), ("AAAAAAA", 3)] ∧
    filter_frequent_omas mapC3 3 ≠ [("AAAAAAA", 3), ("BBBBBBB", 3)] := by
  decide

/-- The aggregate emitted for one qualifying fingerprint by step 4 of
`analyze_pfam_family` in find_orthologues.py (the value stored in
`unique_to_oma[oma_fingerprint]`). -/
structure OmaGroupData where
  pfamCount : Nat
  totalOmaSize : Nat
  uniqueProteins : List Protein
  uniqueCount : Nat
deriving DecidableEq

/-- The entry the step-4 loop emits for one fingerprint, as a function of
the two per-fingerprint external queries: `fetchOutside` models
`get_oma_proteins(oma_fingerprint=F, pfam_id=..., in_pfam=False)` and
`fetchTotal` models `get_total_oma_group_size(F)`; `none` is a failed
query, which the source's exception handlers turn into `[]` / `0`. -/
def gapEntry (fetchOutside : String → Option (List Protein)) (fetchTotal : String → Option Nat)
    (fc : String × Nat) : String × OmaGroupData :=
  let ups := (fetchOutside fc.1).getD []
  (fc.1, { pfamCount := fc.2, totalOmaSize := (fetchTotal fc.1).getD 0,
           uniqueProteins := ups, uniqueCount := ups.length })

/-- The body of the step-4 loop in find_orthologues.py: unconditionally
append the group's entry and add its unique count to the running total. -/
def resolveStep (fetchOutside : String → Option (List Protein)) (fetchTotal : String → Option Nat)
    (acc : List (String × OmaGroupData) × Nat) (fc : String × Nat) :
    List (String × OmaGroupData) × Nat :=
  let ups := (fetchOutside fc.1).getD []
  (acc.1 ++ [(fc.1, { pfamCount := fc.2, totalOmaSize := (fetchTotal fc.1).getD 0,
                      uniqueProteins := ups, uniqueCount := ups.length })],
   acc.2 + ups.length)

/-- Step 4 of `analyze_pfam_family` in find_orthologues.py: the
`unique_to_oma` mapping (in iteration order) and `total_unique_count`. -/
def resolveGaps (fetchOutside : String → Option (List Protein)) (fetchTotal : String → Option Nat)
    (freq : List (String × Nat)) : List (String × OmaGroupData) × Nat :=
  freq.foldl (resolveStep fetchOutside fetchTotal) ([], 0)

theorem resolveGaps_foldl (fo : String → Option (List Protein)) (ft : String → Option Nat) :
    ∀ (freq : List (String × Nat)) (l : List (String × OmaGroupData)) (n : Nat),
      freq.foldl (resolveStep fo ft) (l, n) =
        (l ++ freq.map (gapEntry fo ft),
         n + (freq.map (fun fc => ((fo fc.1).getD []).length)).sum) := by
  intro freq
  induction freq with
  | nil => intro l n; simp
  | cons fc freq ih =>
    intro l n
    rw [List.foldl_cons, resolveStep, ih]
    simp [gapEntry]
    omega

theorem resolveGaps_eq (fo : String → Option (List Protein)) (ft : String → Option Nat)
    (freq : List (String × Nat)) :
    resolveGaps fo ft freq =
      (freq.map (gapEntry fo ft),
       (freq.map (fun fc => ((fo fc.1).getD []).length)).sum) := by
  rw [resolveGaps, resolveGaps_foldl]
  simp

/-- Claim C9 (amended): in find_orthologues.py the total
`unique_to_oma_count` accumulated by step 4 equals the sum of the emitted
groups' `membersOutsideFamily` sizes — an accession occurring in several
qualifying groups is counted once per group, with no global
de-duplication. -/
theorem c9_total_is_sum_of_group_sizes (fo : String → Option (List Protein))
    (ft : String → Option Nat) (freq : List (String × Nat)) :
    (resolveGaps fo ft freq).2 =
      ((resolveGaps fo ft freq).1.map (fun e => e.2.uniqueProteins.length)).sum := by
  rw [resolveGaps_eq]
  simp only [List.map_map]
  rfl

theorem filter_map_gapEntry_agree (fo ft fo' ft' : _) (F : String)
    (hagree : ∀ G, G ≠ F → fo' G = fo G ∧ ft' G = ft G) :
    ∀ freq : List (String × Nat),
      (freq.map (gapEntry fo ft)).filter (fun e => decide (e.1 ≠ F)) =
        (freq.map (gapEntry fo' ft')).filter (fun e => decide (e.1 ≠ F)) := by
  intro freq
  induction freq with
  | nil => rfl
  | cons fc freq ih =>
    rw [List.map_cons, List.map_cons, List.filter_cons, List.filter_cons]
    by_cases hF : fc.1 = F
    · rw [if_neg (by simp [gapEntry, hF]), if_neg (by simp [gapEntry, hF])]
      exact ih
    · have hfo := (hagree fc.1 hF).1
      have hft := (hagree fc.1 hF).2
      rw [if_pos (by simp [gapEntry, hF]), if_pos (by simp [gapEntry, hF])]
      rw [show gapEntry fo' ft' fc = gapEntry fo ft fc by simp [gapEntry, hfo, hft]]
      rw [ih]

/-- Claim C5 (amended, find_orthologues.py side): step 4 always emits an
entry for every qualifying fingerprint F, whose fields come from their own
queries independently — a failure of the outside-members query degrades
only that fingerprint's `membersOutsideFamily` to the empty set (and its
unique count to 0), a failure of the total-size query degrades only its
`totalClusterSize` to 0, and a successful query's field keeps the fetched
value.  The batch is not aborted (every qualifying fingerprint gets an
entry), and the entries of all other fingerprints do not depend on the
oracles' behaviour at F. -/
theorem c5_query_failure_degrades_only_that_group
    (fo fo' : String → Option (List Protein)) (ft ft' : String → Option Nat)
    (freq : List (String × Nat)) (F : String) (c : Nat)
    (hmem : (F, c) ∈ freq)
    (hagree : ∀ G, G ≠ F → fo' G = fo G ∧ ft' G = ft G) :
    (∃ d : OmaGroupData,
      (F, d) ∈ (resolveGaps fo ft freq).1 ∧
      d.pfamCount = c ∧
      d.totalOmaSize = (ft F).getD 0 ∧
      d.uniqueProteins = (fo F).getD [] ∧
      (fo F = none → d.uniqueProteins = [] ∧ d.uniqueCount = 0) ∧
      (ft F = none → d.totalOmaSize = 0)) ∧
    (resolveGaps fo ft freq).1.length = freq.length ∧
    (resolveGaps fo ft freq).1.filter (fun e => decide (e.1 ≠ F)) =
      (resolveGaps fo' ft' freq).1.filter (fun e => decide (e.1 ≠ F)) := by
  refine ⟨?_, ?_, ?_⟩
  · refine ⟨{ pfamCount := c, totalOmaSize := (ft F).getD 0,
              uniqueProteins := (fo F).getD [],
              uniqueCount := ((fo F).getD []).length },
      ?_, rfl, rfl, rfl, ?_, ?_⟩
    · rw [resolveGaps_eq]
      exact List.mem_map_of_mem (gapEntry fo ft) hmem
    · intro h
      simp [h]
    · intro h
      simp [h]
  · rw [resolveGaps_eq]
    simp
  · rw [resolveGaps_eq, resolveGaps_eq]
    exact filter_map_gapEntry_agree fo ft fo' ft' F hagree freq

/-- A concrete protein outside the family, used in the C5 witness. -/
def protB : Protein :=
  { accession := "B00001", entryName := "", proteinName := "Some protein",
    pfamRefs := "", omaRefs := "BBBBBBB", uniprotStatus := "TrEMBL" }

/-- Oracle: the outside-members query fails on "AAAAAAA" and succeeds
elsewhere. -/
def foW : String → Option (List Protein) :=
  fun G => if G = "AAAAAAA" then none else some [protB]

/-- Oracle: the total-size query fails on "AAAAAAA" and succeeds
elsewhere. -/
def ftW : String → Option Nat :=
  fun G => if G = "AAAAAAA" then none else some 7

/-- Oracle: a total-size query that always succeeds, returning 7. -/
def ftOk : String → Option Nat := fun _ => some 7

/-- Concrete instantiation of `c5_query_failure_degrades_only_that_group`
at a single-query failure: the members query fails on "AAAAAAA" while its
size query succeeds; the group is still emitted, only the member set is
degraded, and the result has one entry per qualifying fingerprint. -/
theorem c5_query_failure_witness :
    (∃ d : OmaGroupData,
      ("AAAAAAA", d) ∈ (resolveGaps foW ftOk [("AAAAAAA", 3), ("BBBBBBB", 4)]).1 ∧
      d.pfamCount = 3 ∧
      d.totalOmaSize = (ftOk "AAAAAAA").getD 0 ∧
      d.uniqueProteins = (foW "AAAAAAA").getD [] ∧
      (foW "AAAAAAA" = none → d.uniqueProteins = [] ∧ d.uniqueCount = 0) ∧
      (ftOk "AAAAAAA" = none → d.totalOmaSize = 0)) ∧
    (resolveGaps foW ftOk [("AAAAAAA", 3), ("BBBBBBB", 4)]).1.length =
      ([("AAAAAAA", 3), ("BBBBBBB", 4)] : List (String × Nat)).length ∧
    (resolveGaps foW ftOk [("AAAAAAA", 3), ("BBBBBBB", 4)]).1.filter
        (fun e => decide (e.1 ≠ "AAAAAAA")) =
      (resolveGaps foW ftOk [("AAAAAAA", 3), ("BBBBBBB", 4)]).1.filter
        (fun e => decide (e.1 ≠ "AAAAAAA")) :=
  c5_query_failure_degrades_only_that_group foW foW ftOk ftOk
    [("AAAAAAA", 3), ("BBBBBBB", 4)] "AAAAAAA" 3 (by decide)
    (fun _ _ => ⟨rfl, rfl⟩)

/-- Python-set insertion in first-insertion order. -/
def setInsert (s : List String) (x : String) : List String :=
  if x ∈ s then s else s ++ [x]

/-- `set.update`: union of a set with a list of elements. -/
def setUnion (s : List String) (xs : List String) : List String :=
  xs.foldl setInsert s

/-- `set(xs)`: de-duplicate a list into a set. -/
def setOfList (xs : List String) : List String :=
  xs.foldl setInsert []

/-- `set(xs) - pfamSet`: the set difference used at line 337 of
ortho_counts.py to drop ids already in the family. -/
def setDiff (xs : List String) (pfamSet : List String) : List String :=
  (setOfList xs).filter (fun i => decide (i ∉ pfamSet))

/-- The per-group aggregate stored in `oma_details[oma_id]` by
`analyze_pfam_family` in ortho_counts.py. -/
structure OrthoDetails where
  count : Nat
  totalMembers : Nat
  fingerprint : String
  uniprotIds : List String
deriving DecidableEq

/-- The body of the per-group loop of `analyze_pfam_family` in
ortho_counts.py: a group whose fingerprint cannot be resolved, or whose
member query fails or returns zero ids, is skipped via `continue` — no
entry is emitted for it.  Otherwise the family ids are subtracted and the
entry appended. -/
def orthoStep (getFp : String → Option String) (fetchIds : String → List String)
    (pfamSet : List String) (acc : List String × List (String × OrthoDetails))
    (gc : String × Nat) : List String × List (String × OrthoDetails) :=
  match getFp gc.1 with
  | none => acc
  | some fp =>
    let idsList := fetchIds fp
    if idsList.isEmpty then acc
    else
      let ids := setDiff idsList pfamSet
      (setUnion acc.1 ids,
       acc.2 ++ [(gc.1, { count := gc.2, totalMembers := idsList.length,
                          fingerprint := fp, uniprotIds := ids })])

/-- The per-group loop of `analyze_pfam_family` in ortho_counts.py over the
frequent groups: returns (`all_oma_uniprot_ids`, `oma_details`); the
reported `unique_to_oma_count` is the length of the first component (the
globally de-duplicated union). -/
def orthoResolve (getFp : String → Option String) (fetchIds : String → List String)
    (pfamSet : List String) (freq : List (String × Nat)) :
    List String × List (String × OrthoDetails) :=
  freq.foldl (orthoStep getFp fetchIds pfamSet) ([], [])

/-- Counterexample to claim C5 as stated, on ortho_counts.py (one of the
claim's cited sources): when the member query for the qualifying group
"G1" returns zero results, ortho_counts.py does NOT emit a degraded
GapGroup — the group is skipped entirely and `oma_details` is empty. -/
theorem c5_counterexample :
    (orthoResolve (fun _ => some "AAAAAAA") (fun _ => []) [] [("G1", 3)]).2 = [] := by
  decide

/-- Oracle for the C9 counterexample: group ids resolve to distinct
fingerprints. -/
def getFpC9 : String → Option String :=
  fun g => if g = "G1" then some "AAAAAAA" else some "BBBBBBB"

/-- Oracle for the C9 counterexample: the two clusters overlap in the
accession "X2". -/
def fetchIdsC9 : String → List String :=
  fun fp => if fp = "AAAAAAA" then ["X1", "X2"] else ["X2", "X3"]

/-- Counterexample to claim C9 as stated, on ortho_counts.py (one of the
claim's cited sources): with two qualifying groups overlapping in one
accession, the reported total is the size of the de-duplicated union (3),
not the sum of the per-group sizes (4). -/
theorem c9_counterexample :
    (orthoResolve getFpC9 fetchIdsC9 [] [("G1", 3), ("G2", 3)]).1.length = 3 ∧
    ((orthoResolve getFpC9 fetchIdsC9 [] [("G1", 3), ("G2", 3)]).2.map
      (fun e => e.2.uniprotIds.length)).sum = 4 ∧
    (orthoResolve getFpC9 fetchIdsC9 [] [("G1", 3), ("G2", 3)]).1.length ≠
      ((orthoResolve getFpC9 fetchIdsC9 [] [("G1", 3), ("G2", 3)]).2.map
        (fun e => e.2.uniprotIds.length)).sum := by
  decide

/-- A one-record family whose only protein has accession "A0A001". -/
def famC2 : List Protein :=
  [{ accession := "A0A001", entryName := "", proteinName := "", pfamRefs := "PF00001",
     omaRefs := "ABCDEFG", uniprotStatus := "TrEMBL" }]

/-- An external-query row whose accession coincides with a family member:
the Q2 NOT-family filter was imprecise. -/
def outsiderC2 : Protein :=
  { accession := "A0A001", entryName := "", proteinName := "Kinase", pfamRefs := "",
    omaRefs := "ABCDEFG", uniprotStatus := "TrEMBL" }

/-- Claim C2, evaluated at the failing input: find_orthologues.py builds
the family accession set (`pfamAccessions`) but step 4 never filters the
external query result against it, so when the external query wrongly
returns the family member "A0A001", that accession is emitted inside the
group's `membersOutsideFamily` — the set-difference invariant is violated.
(ortho_counts.py does perform the subtraction; find_orthologues.py, the
claim's primary source, does not.) -/
theorem c2_refilter_missing :
    "A0A001" ∈ pfamAccessions famC2 ∧
    ∃ e ∈ (resolveGaps (fun _ => some [outsiderC2]) (fun _ => some 5) [("ABCDEFG", 3)]).1,
      e.1 = "ABCDEFG" ∧ "A0A001" ∈ e.2.uniqueProteins.map Protein.accession := by
  decide

/-- ASCII-lexicographic list comparison, the order Python uses on
strings. -/
def listLe : List Char → List Char → Bool
  | [], _ => true
  | _ :: _, [] => false
  | c :: cs, d :: ds => if c < d then true else if d < c then false else listLe cs ds

/-- Python `s1 <= s2` on strings. -/
def strLeB (a b : String) : Bool := listLe a.data b.data

/-- Stable insertion step for ascending string sort. -/
def insStrAsc (x : String) : List String → List String
  | [] => [x]
  | y :: ys => if strLeB x y then x :: y :: ys else y :: insStrAsc x ys

/-- `sorted(strings)`: stable ascending sort. -/
def sortStrAsc : List String → List String
  | [] => []
  | x :: xs => insStrAsc x (sortStrAsc xs)

/-- Stable insertion step for sorting proteins by ascending accession. -/
def insAccAsc (x : Protein) : List Protein → List Protein
  | [] => [x]
  | y :: ys => if strLeB x.accession y.accession then x :: y :: ys else y :: insAccAsc x ys

/-- `sorted(proteins, key=lambda x: x['accession'])`. -/
def sortAccAsc : List Protein → List Protein
  | [] => []
  | x :: xs => insAccAsc x (sortAccAsc xs)

/-- The 80-character `=` rule used by both report renderers. -/
def eq80 : String := String.mk (List.replicate 80 '=')

/-- The 50-character `-` rule used by both report renderers. -/
def dash50 : String := String.mk (List.replicate 50 '-')

/-- The 60-character `=` rule under each group heading. -/
def eq60 : String := String.mk (List.replicate 60 '=')

/-- The `results` dict returned by `analyze_pfam_family` in
find_orthologues.py (the fields `pfam_proteins` carries are not read by the
report and are omitted; the early return at lines 224-231 of the source
omits the `min_count` and `analysis_timestamp` keys, which this model keeps
as fields). -/
structure FindResults where
  pfamId : String
  minCount : Nat
  pfamProteinCount : Nat
  omaFingerprints : List (String × Nat)
  uniqueToOma : List (String × OmaGroupData)
  uniqueToOmaCount : Nat
  analysisTimestamp : String
deriving DecidableEq

/-- `protein_name[:80] + "..."` truncation in `generate_report`
(find_orthologues.py). -/
def truncName (s : String) : String :=
  if s.length > 80 then s.take 80 ++ "..." else s

/-- Header and summary lines of the find_orthologues.py report; the
analysis date comes from the `AnalysisResult`, not from the render-time
clock. -/
def findHeaderLines (r : FindResults) : List String :=
  [eq80, "FAST PFAM-OMA ORTHOLOG ANALYSIS REPORT", eq80,
   "Pfam Family: " ++ r.pfamId,
   "Minimum Count Threshold: " ++ toString r.minCount,
   "Analysis Date: " ++ r.analysisTimestamp, "",
   "SUMMARY STATISTICS", dash50,
   "Total proteins in Pfam family: " ++ toString r.pfamProteinCount,
   "OMA groups with >=" ++ toString r.minCount ++ " occurrences: " ++
     toString r.omaFingerprints.length,
   "Proteins unique to OMA groups: " ++ toString r.uniqueToOmaCount, ""]

/-- The FREQUENT OMA GROUPS section of the find_orthologues.py report: the
source guards it with `if results['oma_fingerprints']:` and has no else
branch, so when no group qualifies the section contributes no lines at
all. -/
def freqSectionLines (r : FindResults) : List String :=
  if r.omaFingerprints.isEmpty then []
  else
    ["FREQUENT OMA GROUPS (>=" ++ toString r.minCount ++ " occurrences)", dash50] ++
    (sortByCountDesc r.omaFingerprints).map (fun fc =>
      fc.1 ++ ": " ++ toString fc.2 ++ " in Pfam, " ++
        toString (((r.uniqueToOma.find? (fun e => decide (e.1 = fc.1))).map
          (fun e => e.2.totalOmaSize)).getD 0) ++ " total in OMA, " ++
        toString (((r.uniqueToOma.find? (fun e => decide (e.1 = fc.1))).map
          (fun e => e.2.uniqueCount)).getD 0) ++ " unique to OMA") ++ [""]

/-- The block written for one OMA group inside the unique-proteins section
of the find_orthologues.py report. -/
def uniqueGroupLines (r : FindResults) (f : String) : List String :=
  match r.uniqueToOma.find? (fun e => decide (e.1 = f)) with
  | none => []
  | some e =>
    if e.2.uniqueProteins.isEmpty then []
    else
      ["OMA GROUP: " ++ f, eq60] ++
      (sortAccAsc e.2.uniqueProteins).map
        (fun p => "      " ++ p.accession ++ " | " ++ truncName p.proteinName) ++ [""]

/-- The PROTEINS UNIQUE TO OMA GROUPS section of the find_orthologues.py
report; when `unique_to_oma_count` is zero the source replaces it with a
single explanatory line (plus a blank line). -/
def uniqueSectionLines (r : FindResults) : List String :=
  if r.uniqueToOmaCount > 0 then
    ["PROTEINS UNIQUE TO OMA GROUPS (Not in Pfam)", dash50] ++
    ((sortStrAsc (r.uniqueToOma.map (fun e => e.1))).map (uniqueGroupLines r)).flatten
  else
    ["No proteins found that are unique to OMA groups.", ""]

/-- `generate_report` of find_orthologues.py as a pure function: the text
written to the output file.  The ambient render-time clock and the
description-query oracle are passed explicitly; the source never consults
either during rendering, so the body ignores them. -/
def renderFind (r : FindResults) (now : String) (descFetch : String → String) : String :=
  String.join ((findHeaderLines r ++ freqSectionLines r ++ uniqueSectionLines r ++ [eq80]).map
    (fun l => l ++ "\n"))

/-- Claim C4 (amended, find_orthologues.py side): the report renderer of
find_orthologues.py is deterministic and idempotent — its output depends
only on the `AnalysisResult`; it reads neither the invocation-time clock
nor any external query during rendering, so any two invocations on the
same result produce byte-identical text. -/
theorem c4_find_render_pure (r : FindResults) (now1 now2 : String)
    (d1 d2 : String → String) :
    renderFind r now1 d1 = renderFind r now2 d2 := rfl

/-- The `results` dict returned by `analyze_pfam_family` in
ortho_counts.py. -/
structure OrthoResults where
  pfamId : String
  pfamFolder : String
  minCount : Nat
  pfamUniprotCount : Nat
  pfamUniprotIds : List String
  omaMapping : List (String × String)
  frequentOmas : List (String × Nat)
  omaDetails : List (String × OrthoDetails)
  uniqueToOmaCount : Nat
  uniqueToOmaIds : List String
deriving DecidableEq

/-- The UNIPROT IDs UNIQUE TO OMA section of the ortho_counts.py report:
descriptions are fetched from the external service during rendering via
`get_uniprot_description`, modelled by the `descFetch` oracle. -/
def orthoUniqueLines (r : OrthoResults) (descFetch : String → String) : List String :=
  if r.uniqueToOmaIds.isEmpty then
    ["No UniProt IDs found that are unique to OMA groups."]
  else
    ["UNIPROT IDs UNIQUE TO OMA (Not in Pfam)", dash50] ++
    ((sortStrAsc ((r.omaDetails.filter (fun e => !e.2.uniprotIds.isEmpty)).map
        (fun e => e.1))).map (fun omaId =>
      match r.omaDetails.find? (fun e => decide (e.1 = omaId)) with
      | none => []
      | some e =>
        ["OMA GROUP: " ++ omaId ++ " (Fingerprint: " ++ e.2.fingerprint ++ ")", eq60] ++
        (sortStrAsc e.2.uniprotIds).map
          (fun uid => "      " ++ uid ++ " | " ++ descFetch uid) ++ [""])).flatten

/-- `generate_report` of ortho_counts.py as a pure function of the result,
the render-time clock (`time.strftime` is called DURING rendering to stamp
the Analysis Date line) and the description-query oracle. -/
def renderOrtho (r : OrthoResults) (now : String) (descFetch : String → String) : String :=
  String.intercalate "\n" (
    [eq80, "PFAM-OMA ORTHOLOG ANALYSIS REPORT", eq80,
     "Pfam Family: " ++ r.pfamId,
     "Minimum Count Threshold: " ++ toString r.minCount,
     "Analysis Date: " ++ now, "",
     "SUMMARY STATISTICS", dash50,
     "Total UniProt IDs in Pfam family: " ++ toString r.pfamUniprotCount,
     "UniProt IDs with OMA fingerprints: " ++ toString r.omaMapping.length,
     "Frequent OMA groups (>=" ++ toString r.minCount ++ " occurrences): " ++
       toString r.frequentOmas.length,
     "UniProt IDs unique to OMA: " ++ toString r.uniqueToOmaCount, "",
     "FREQUENT OMA GROUPS (>=" ++ toString r.minCount ++ " occurrences)", dash50] ++
    r.frequentOmas.map (fun gc =>
      gc.1 ++ " (fingerprint: " ++
        (((r.omaDetails.find? (fun e => decide (e.1 = gc.1))).map
          (fun e => e.2.fingerprint)).getD "Unknown") ++ "): " ++
        toString gc.2 ++ " occurrences in Pfam, " ++
        toString (((r.omaDetails.find? (fun e => decide (e.1 = gc.1))).map
          (fun e => e.2.totalMembers)).getD 0) ++ " total valid members") ++
    [""] ++ orthoUniqueLines r descFetch ++ [eq80])

/-- An empty-analysis result for ortho_counts.py. -/
def orthoResEmpty : OrthoResults :=
  { pfamId := "PF00001", pfamFolder := "PF00001", minCount := 3, pfamUniprotCount := 0,
    pfamUniprotIds := [], omaMapping := [], frequentOmas := [], omaDetails := [],
    uniqueToOmaCount := 0, uniqueToOmaIds := [] }

set_option maxRecDepth 100000 in
/-- Counterexample to claim C4 as stated, on ortho_counts.py (one of the
claim's cited sources): for the same fixed `AnalysisResult` and the same
description-query responses, rendering at two different invocation times
produces different report text, because the Analysis Date line is stamped
with the render-time clock. -/
theorem c4_counterexample :
    renderOrtho orthoResEmpty "2025-06-12 20:00:00" (fun _ => "Unknown") ≠
      renderOrtho orthoResEmpty "2025-06-13 09:30:00" (fun _ => "Unknown") := by
  decide

/-- Claim C10 (amended): in the find_orthologues.py report, an empty
unique-records section is replaced by the single explanatory line
"No proteins found that are unique to OMA groups.", but an empty
cluster-groups section is silently omitted — it contributes no lines at
all. -/
theorem c10_empty_sections (r : FindResults) (h1 : r.omaFingerprints = [])
    (h2 : r.uniqueToOmaCount = 0) :
    freqSectionLines r = [] ∧
    uniqueSectionLines r = ["No proteins found that are unique to OMA groups.", ""] := by
  constructor
  · simp [freqSectionLines, h1]
  · simp [uniqueSectionLines, h2]

/-- A concrete `AnalysisResult` with no qualifying groups and no unique
records. -/
def findResEmpty : FindResults :=
  { pfamId := "PF00001", minCount := 3, pfamProteinCount := 2, omaFingerprints := [],
    uniqueToOma := [], uniqueToOmaCount := 0, analysisTimestamp := "2025-06-12 20:36:11" }

/-- Counterexample to claim C10 as stated: on a result with no qualifying
cluster groups, the FREQUENT OMA GROUPS section contributes zero lines —
the rendered report is exactly the concatenation with that section absent,
rather than containing a single explanatory line for it. -/
theorem c10_counterexample :
    freqSectionLines findResEmpty = [] ∧
    findHeaderLines findResEmpty ++ freqSectionLines findResEmpty ++
        uniqueSectionLines findResEmpty ++ [eq80] =
      findHeaderLines findResEmpty ++ uniqueSectionLines findResEmpty ++ [eq80] := by
  decide

/-- Concrete instantiation of `c10_empty_sections` at `findResEmpty`. -/
theorem c10_empty_sections_witness :
    freqSectionLines findResEmpty = [] ∧
    uniqueSectionLines findResEmpty =
      ["No proteins found that are unique to OMA groups.", ""] :=
  c10_empty_sections findResEmpty rfl rfl

/-- `re.match(r'^PF\d\x7b5\x7d$', s)`: "PF" followed by exactly five
digits. -/
def pfamIdValid (s : String) : Bool :=
  match s.data with
  | ['P', 'F', d1, d2, d3, d4, d5] =>
    d1.isDigit && d2.isDigit && d3.isDigit && d4.isDigit && d5.isDigit
  | _ => false

/-- `analyze_pfam_family` of find_orthologues.py as a function of the Q1
result (`familyRows`; an empty list covers both a failed and an empty
family query, since `get_oma_proteins` returns `[]` on failure) and the
per-fingerprint query oracles.  `none` models the falsy `return \x7b\x7d`.
The early return for a family with no fingerprints omits the `min_count`
and `analysis_timestamp` keys in the source; the model keeps the fields. -/
def analyze_pfam_family (familyRows : List Protein)
    (fetchOutside : String → Option (List Protein)) (fetchTotal : String → Option Nat)
    (pfamId : String) (minCount : Nat) (now : String) : Option FindResults :=
  if !pfamIdValid pfamId then none
  else if familyRows.isEmpty then none
  else if (omaCounts familyRows).isEmpty then
    some { pfamId := pfamId, minCount := minCount, pfamProteinCount := familyRows.length,
           omaFingerprints := [], uniqueToOma := [], uniqueToOmaCount := 0,
           analysisTimestamp := now }
  else
    let freq := frequent_omas (omaCounts familyRows) minCount
    let rg := resolveGaps fetchOutside fetchTotal freq
    some { pfamId := pfamId, minCount := minCount, pfamProteinCount := familyRows.length,
           omaFingerprints := freq, uniqueToOma := rg.1, uniqueToOmaCount := rg.2,
           analysisTimestamp := now }

/-- `main` of find_orthologues.py: exit code and, when the run succeeds,
the report text written to the output file.  An empty analysis result
exits 1 before `generate_report` is called, so no report is written. -/
def main_find (familyRows : List Protein) (fetchOutside : String → Option (List Protein))
    (fetchTotal : String → Option Nat) (pfamId : String) (minCount : Nat) (now : String)
    (descFetch : String → String) : Nat × Option String :=
  if !pfamIdValid pfamId then (1, none)
  else
    match analyze_pfam_family familyRows fetchOutside fetchTotal pfamId minCount now with
    | none => (1, none)
    | some r => (0, some (renderFind r now descFetch))

/-- Claim C6: when the family-membership query yields zero records, the
analysis returns the empty result, the process exits with code 1 and no
report text is produced. -/
theorem c6_empty_family_fails_fast (familyRows : List Protein)
    (fo : String → Option (List Protein)) (ft : String → Option Nat)
    (pfamId : String) (minCount : Nat) (now : String) (descFetch : String → String)
    (h : familyRows = []) :
    analyze_pfam_family familyRows fo ft pfamId minCount now = none ∧
    main_find familyRows fo ft pfamId minCount now descFetch = (1, none) := by
  subst h
  have ha : analyze_pfam_family [] fo ft pfamId minCount now = none := by
    by_cases hv : pfamIdValid pfamId = true <;> simp [analyze_pfam_family, hv]
  refine ⟨ha, ?_⟩
  by_cases hv : pfamIdValid pfamId = true <;> simp [main_find, hv, ha]

/-- Concrete instantiation of `c6_empty_family_fails_fast` with a valid
family identifier and an empty Q1 result. -/
theorem c6_empty_family_fails_fast_witness :
    analyze_pfam_family [] foW ftW "PF00001" 3 "2025-06-12 20:36:11" = none ∧
    main_find [] foW ftW "PF00001" 3 "2025-06-12 20:36:11" (fun _ => "Unknown") = (1, none) :=
  c6_empty_family_fails_fast [] foW ftW "PF00001" 3 "2025-06-12 20:36:11"
    (fun _ => "Unknown") rfl

end FindOrthos
